import Mathlib

/-!
Verification of the pokerhelper client-side labeling and streaming layer.

The definitions below are a shallow embedding of the TypeScript source:
the `TrainingPage` component (region store, auto-detect, card selection,
dataset save), the `CardSelector` two-stage quick-label input, the
`QuickLabelBar` auto-advance effect, the `useWebSocket` hook and the
`App` auto-analyze loop.  Numbers that the source manipulates as JS
numbers are modelled as `Nat`/`Int` (indices, timestamps) and `ℚ`
(pixel geometry), and JS `undefined`-able fields as `Option`.
-/

namespace PokerHelper

/-! ### Decimal rendering of a JS number used in template literals

The source builds region ids with template literals such as
`` `box-${idx}` `` and `` `box-${Date.now()}` ``.  `natDigits` renders a
natural number in decimal exactly as JS does for a non-negative integer;
it is written with structural fuel so that the kernel can evaluate it. -/

/-- Decimal digit characters, as produced by JS number-to-string coercion. -/
def digitChar : Nat → Char
  | 0 => '0'
  | 1 => '1'
  | 2 => '2'
  | 3 => '3'
  | 4 => '4'
  | 5 => '5'
  | 6 => '6'
  | 7 => '7'
  | 8 => '8'
  | _ => '9'

def natDigitsAux : Nat → Nat → List Char
  | 0, _ => []
  | fuel + 1, n =>
    if n < 10 then [digitChar n]
    else natDigitsAux fuel (n / 10) ++ [digitChar (n % 10)]

/-- Decimal digit list of `n`, most significant first. -/
def natDigits (n : Nat) : List Char := natDigitsAux (n + 1) n

/-- Decimal string of `n`; the embedding of JS `${n}` for a natural `n`. -/
def natStr (n : Nat) : String := String.mk (natDigits n)

/-- Value of a digit character. -/
def charVal (c : Char) : Nat := c.toNat - 48

/-- Numeric value of a digit list, most significant first. -/
def digitsVal (l : List Char) : Nat := l.foldl (fun a c => 10 * a + charVal c) 0

theorem charVal_digitChar (d : Nat) (hd : d < 10) : charVal (digitChar d) = d := by
  interval_cases d <;> rfl

theorem digitsVal_append_singleton (l : List Char) (c : Char) :
    digitsVal (l ++ [c]) = 10 * digitsVal l + charVal c := by
  simp [digitsVal, List.foldl_append]

theorem digitsVal_natDigitsAux (fuel n : Nat) (h : n < fuel) :
    digitsVal (natDigitsAux fuel n) = n := by
  induction fuel generalizing n with
  | zero => omega
  | succ fuel ih =>
    rw [natDigitsAux]
    by_cases h10 : n < 10
    · simp only [if_pos h10]
      simp [digitsVal, charVal_digitChar n h10]
    · simp only [if_neg h10]
      rw [digitsVal_append_singleton, ih (n / 10) (by omega),
        charVal_digitChar (n % 10) (Nat.mod_lt n (by omega))]
      omega

theorem digitsVal_natDigits (n : Nat) : digitsVal (natDigits n) = n :=
  digitsVal_natDigitsAux (n + 1) n (Nat.lt_succ_self n)

theorem natStr_injective : Function.Injective natStr := by
  intro a b h
  have hd : natDigits a = natDigits b := congrArg String.data h
  have := congrArg digitsVal hd
  rwa [digitsVal_natDigits, digitsVal_natDigits] at this

/-- Region id built by the source as `` `box-${n}` ``. -/
def boxId (n : Nat) : String := "box-" ++ natStr n

theorem boxId_injective : Function.Injective boxId := by
  intro a b h
  apply natStr_injective
  have : ("box-" ++ natStr a).data = ("box-" ++ natStr b).data := congrArg String.data h
  simp only [String.data_append] at this
  exact congrArg String.mk (List.append_cancel_left this)

/-! ### The region data model (`BoundingBox` in `TrainingPage`) -/

/-- A bounding box of `TrainingPage`: id, pixel geometry, and the optional
label fields set by detection or by the card selector. -/
structure RBox where
  id : String
  x : ℚ
  y : ℚ
  width : ℚ
  height : ℚ
  classId : Option Nat := none
  className : Option String := none
  confidence : Option ℚ := none
  region_type : Option String := none
  position_index : Option Nat := none
deriving DecidableEq

/-- The labeling state owned by `TrainingPage`: the region collection, the
selected region id and the sequential cursor. -/
structure StoreState where
  boxes : List RBox
  selectedBoxId : Option String
  currentBoxIndex : Nat
deriving DecidableEq

/-- Initial labeling state (`useState` initialisers in `TrainingPage`). -/
def initStore : StoreState := { boxes := [], selectedBoxId := none, currentBoxIndex := 0 }

/-- Effect at `TrainingPage` lines 156-160: whenever `boxes` or
`currentBoxIndex` change and the index is in range, the selection is set
to the region at the cursor. -/
def syncSelection (s : StoreState) : StoreState :=
  match s.boxes[s.currentBoxIndex]? with
  | some b => { s with selectedBoxId := some b.id }
  | none => s

/-- Geometry of a manually drawn box (`Omit<BoundingBox, 'id'>`). -/
structure BoxDraft where
  x : ℚ
  y : ℚ
  width : ℚ
  height : ℚ
deriving DecidableEq

/-- Handler `handleBoxCreate`: appends a new box with id `` `box-${Date.now()}` ``
(`now` is the millisecond timestamp), selects it, and sets the cursor to its
index (the previous length of the collection). -/
def handleBoxCreate (s : StoreState) (draft : BoxDraft) (now : Nat) : StoreState :=
  let newBox : RBox :=
    { id := boxId now, x := draft.x, y := draft.y, width := draft.width, height := draft.height }
  { boxes := s.boxes ++ [newBox],
    selectedBoxId := some newBox.id,
    currentBoxIndex := s.boxes.length }

/-- Handler `handleBoxDelete`: filters out the box with the given id; when
that box was the selected one, the selection is cleared and the cursor is
`Math.max(0, currentBoxIndex - 1)` (truncated `Nat` subtraction). -/
def handleBoxDelete (s : StoreState) (delId : String) : StoreState :=
  let newBoxes := s.boxes.filter (fun b => b.id != delId)
  if s.selectedBoxId = some delId then
    { boxes := newBoxes, selectedBoxId := none, currentBoxIndex := s.currentBoxIndex - 1 }
  else
    { s with boxes := newBoxes }

/-- A detection-response region (`/api/training/detect` response shape). -/
structure DetRegion where
  x : ℚ
  y : ℚ
  pixel_width : ℚ
  pixel_height : ℚ
  suggested_class : Option String := none
  confidence : Option ℚ := none
  region_type : Option String := none
  position_index : Option Nat := none
deriving DecidableEq

/-- The 52-card class list built by `CardSelector`: for each suit in
`c, d, h, s`, each rank in `2..9, T, J, Q, K, A`. -/
def CARD_CLASSES : List String :=
  (["c", "d", "h", "s"].map fun suit =>
    (["2", "3", "4", "5", "6", "7", "8", "9", "T", "J", "Q", "K", "A"].map fun rank =>
      rank ++ suit)).flatten

/-- Lookup in the `CLASS_TO_ID` record: the index of a card string in
`CARD_CLASSES`, or `none` for an unknown card. -/
def CLASS_TO_ID (card : String) : Option Nat :=
  CARD_CLASSES.findIdx? (fun c => c == card)

/-- Region-to-box conversion in `autoDetect`: each detected region becomes a
box with id `` `box-${idx}` `` and, when a class was suggested, the class id
looked up in `CLASS_TO_ID`. -/
def detRegionToBox (idx : Nat) (r : DetRegion) : RBox :=
  { id := boxId idx,
    x := r.x, y := r.y, width := r.pixel_width, height := r.pixel_height,
    classId := r.suggested_class.bind CLASS_TO_ID,
    className := r.suggested_class,
    confidence := r.confidence,
    region_type := r.region_type,
    position_index := r.position_index }

def detectToBoxesAux : Nat → List DetRegion → List RBox
  | _, [] => []
  | idx, r :: rs => detRegionToBox idx r :: detectToBoxesAux (idx + 1) rs

/-- `data.regions.map((r, idx) => ...)` in `autoDetect`. -/
def detectToBoxes (regions : List DetRegion) : List RBox := detectToBoxesAux 0 regions

/-- State change of `autoDetect` (lines 301-302): the collection is replaced
by the converted regions and the cursor is reset to 0; the selection is not
written by this handler. -/
def autoDetectReplace (s : StoreState) (regions : List DetRegion) : StoreState :=
  { s with boxes := detectToBoxes regions, currentBoxIndex := 0 }

/-! ### The store transition system for claims C1 and C10

An operation is a manual creation, a deletion, or a detection-pass
replacement; after each handler the selection-sync effect of
`TrainingPage` runs. -/

inductive StoreOp where
  | create (draft : BoxDraft) (now : Nat)
  | delete (delId : String)
  | replaceAll (regions : List DetRegion)
deriving DecidableEq

def applyOp (s : StoreState) : StoreOp → StoreState
  | .create draft now => syncSelection (handleBoxCreate s draft now)
  | .delete delId => syncSelection (handleBoxDelete s delId)
  | .replaceAll regions => syncSelection (autoDetectReplace s regions)

/-- Run a sequence of store operations from a state. -/
def runOps (s : StoreState) (ops : List StoreOp) : StoreState := ops.foldl applyOp s

/-- Selection validity: whenever the collection is non-empty, a non-null
selection id names an existing region. -/
def SelValid (s : StoreState) : Prop :=
  s.boxes ≠ [] → ∀ i, s.selectedBoxId = some i → i ∈ s.boxes.map RBox.id

theorem selValid_init : SelValid initStore := by
  intro h
  simp [initStore] at h

theorem syncSelection_boxes (s : StoreState) : (syncSelection s).boxes = s.boxes := by
  unfold syncSelection
  cases s.boxes[s.currentBoxIndex]? <;> rfl

theorem selValid_syncSelection (s : StoreState) (h : SelValid s) :
    SelValid (syncSelection s) := by
  unfold SelValid syncSelection at *
  cases hb : s.boxes[s.currentBoxIndex]? with
  | none => simpa [hb] using h
  | some b =>
    simp only [hb]
    intro _ i hi
    obtain rfl : b.id = i := by simpa using hi
    exact List.mem_map_of_mem RBox.id (List.getElem?_mem hb)

theorem selValid_create (s : StoreState) (draft : BoxDraft) (now : Nat) :
    SelValid (handleBoxCreate s draft now) := by
  unfold SelValid handleBoxCreate
  intro _ i hi
  simp only at hi ⊢
  obtain rfl : boxId now = i := by simpa using hi
  simp

theorem selValid_delete (s : StoreState) (delId : String) (h : SelValid s) :
    SelValid (handleBoxDelete s delId) := by
  unfold SelValid handleBoxDelete at *
  by_cases hsel : s.selectedBoxId = some delId
  · simp [hsel]
  · simp only [if_neg hsel]
    intro hne i hi
    have hsb : s.boxes ≠ [] := by
      intro hnil
      simp [hnil] at hne
    have hmem := h hsb i hi
    rw [List.mem_map] at hmem ⊢
    obtain ⟨b, hb, rfl⟩ := hmem
    refine ⟨b, List.mem_filter.mpr ⟨hb, ?_⟩, rfl⟩
    simp only [bne_iff_ne, ne_eq, decide_eq_true_eq]
    intro hbid
    rw [hbid] at hi
    exact hsel (hi ▸ rfl)

theorem selValid_replace (s : StoreState) (regions : List DetRegion) :
    SelValid (syncSelection (autoDetectReplace s regions)) := by
  unfold SelValid syncSelection autoDetectReplace
  cases hdb : detectToBoxes regions with
  | nil => simp [hdb]
  | cons b bs =>
    simp only [hdb]
    intro _ i hi
    obtain rfl : b.id = i := by simpa using hi
    simp

theorem selValid_applyOp (s : StoreState) (op : StoreOp) (h : SelValid s) :
    SelValid (applyOp s op) := by
  cases op with
  | create draft now => exact selValid_syncSelection _ (selValid_create s draft now)
  | delete delId => exact selValid_syncSelection _ (selValid_delete s delId h)
  | replaceAll regions => exact selValid_replace s regions

theorem selValid_runOps (s : StoreState) (ops : List StoreOp) (h : SelValid s) :
    SelValid (runOps s ops) := by
  induction ops generalizing s with
  | nil => exact h
  | cons op ops ih => exact ih (applyOp s op) (selValid_applyOp s op h)

/-- C1 (counterexample).  The claim "whenever the selection id is non-null it
refers to a region that exists in the current region collection" fails on the
code: a detection pass that yields one region selects it (via the sync
effect), and a second detection pass that yields zero regions empties the
collection without clearing the selection, leaving the stale id `box-0`
selected while no region exists. -/
theorem selection_invalid_counterexample :
    (runOps initStore
        [.replaceAll [{ x := 0, y := 0, pixel_width := 1, pixel_height := 1 }],
         .replaceAll []]).selectedBoxId = some ("box-" ++ "0") ∧
    ("box-" ++ "0") ∉
      ((runOps initStore
        [.replaceAll [{ x := 0, y := 0, pixel_width := 1, pixel_height := 1 }],
         .replaceAll []]).boxes.map RBox.id) := by
  constructor
  · rfl
  · decide

/-- C1 (amended).  For all sequences of create/delete/detection-replacement
operations on the labeling store, whenever the region collection is
*non-empty*, a non-null selection id refers to an existing region.  (The
unrestricted claim fails when a detection pass returns zero regions; see the
counterexample.) -/
theorem selection_valid_when_nonempty (ops : List StoreOp) (i : String)
    (hne : (runOps initStore ops).boxes ≠ [])
    (hsel : (runOps initStore ops).selectedBoxId = some i) :
    i ∈ (runOps initStore ops).boxes.map RBox.id :=
  selValid_runOps initStore ops selValid_init hne i hsel

theorem selection_valid_when_nonempty_witness :
    ("box-" ++ "0") ∈
      ((runOps initStore
        [.replaceAll [{ x := 0, y := 0, pixel_width := 1, pixel_height := 1 }]]).boxes.map
          RBox.id) :=
  selection_valid_when_nonempty
    [.replaceAll [{ x := 0, y := 0, pixel_width := 1, pixel_height := 1 }]]
    ("box-" ++ "0") (by decide) (by rfl)

/-- C9 (confirmed).  `handleBoxDelete id` removes exactly the region with
that id (every surviving region has a different id, and every region with a
different id survives); when the deleted region was the selected one, the
selection becomes none and the cursor decreases by one, floored at 0 (`Nat`
truncated subtraction is `Math.max(0, i - 1)`). -/
theorem handleBoxDelete_removes_and_fixes_selection (s : StoreState) (delId : String) :
    (∀ b ∈ (handleBoxDelete s delId).boxes, b.id ≠ delId) ∧
    (∀ b ∈ s.boxes, b.id ≠ delId → b ∈ (handleBoxDelete s delId).boxes) ∧
    (s.selectedBoxId = some delId →
      (handleBoxDelete s delId).selectedBoxId = none ∧
      (handleBoxDelete s delId).currentBoxIndex = s.currentBoxIndex - 1) := by
  refine ⟨?_, ?_, ?_⟩
  · intro b hb
    have hb' : b ∈ s.boxes.filter (fun b => b.id != delId) := by
      unfold handleBoxDelete at hb
      by_cases hsel : s.selectedBoxId = some delId
      · simpa [hsel] using hb
      · simpa [hsel] using hb
    have := (List.mem_filter.mp hb').2
    simpa using this
  · intro b hb hne
    have hmem : b ∈ s.boxes.filter (fun b => b.id != delId) :=
      List.mem_filter.mpr ⟨hb, by simpa using hne⟩
    unfold handleBoxDelete
    by_cases hsel : s.selectedBoxId = some delId
    · simpa [hsel] using hmem
    · simpa [hsel] using hmem
  · intro hsel
    unfold handleBoxDelete
    simp [hsel]

theorem handleBoxDelete_removes_and_fixes_selection_witness :
    (handleBoxDelete
        { boxes := [{ id := "r0", x := 0, y := 0, width := 1, height := 1 },
                    { id := "r1", x := 2, y := 2, width := 1, height := 1 }],
          selectedBoxId := some "r1", currentBoxIndex := 1 } "r1").selectedBoxId = none ∧
    (handleBoxDelete
        { boxes := [{ id := "r0", x := 0, y := 0, width := 1, height := 1 },
                    { id := "r1", x := 2, y := 2, width := 1, height := 1 }],
          selectedBoxId := some "r1", currentBoxIndex := 1 } "r1").currentBoxIndex = 0 :=
  (handleBoxDelete_removes_and_fixes_selection _ "r1").2.2 rfl

/-! ### Claim C10: region-id freshness across a session -/

/-- Ids introduced into the session by one store operation. -/
def opNewIds : StoreOp → List String
  | .create _ now => [boxId now]
  | .delete _ => []
  | .replaceAll regions => (detectToBoxes regions).map RBox.id

/-- Every id of every region the session has ever contained, over a sequence
of operations. -/
def everIds (ops : List StoreOp) : List String := (ops.map opNewIds).flatten

theorem detectToBoxesAux_ids (idx : Nat) (regions : List DetRegion) :
    (detectToBoxesAux idx regions).map RBox.id = (List.range' idx regions.length).map boxId := by
  induction regions generalizing idx with
  | nil => rfl
  | cons r rs ih =>
    simp only [detectToBoxesAux, List.map_cons, List.length_cons, List.range'_succ, ih]
    rfl

/-- C10 (counterexample).  The claim "region ids are never reused within a
labeling session" fails on the code: every detection pass numbers its regions
from 0 (`` `box-${idx}` ``), so two consecutive detection passes both
introduce a region with id `box-0`. -/
theorem region_ids_reused_counterexample :
    ¬ (everIds
        [.replaceAll [{ x := 0, y := 0, pixel_width := 1, pixel_height := 1 }],
         .replaceAll [{ x := 5, y := 5, pixel_width := 2, pixel_height := 2 }]]).Nodup := by
  decide

/-- C10 (amended).  Within a single detection pass ids are pairwise distinct
(distinct indices render to distinct decimal strings), and the id constructor
for manual creation (`` `box-${Date.now()}` ``) is injective in the
timestamp; across detection passes ids are reused, so the session-wide
no-reuse claim fails (see the counterexample). -/
theorem region_ids_nodup_within_pass (regions : List DetRegion) :
    ((detectToBoxes regions).map RBox.id).Nodup ∧ Function.Injective boxId := by
  refine ⟨?_, boxId_injective⟩
  rw [detectToBoxes, detectToBoxesAux_ids]
  exact (List.nodup_range' (s := 0) (n := regions.length)).map boxId_injective

theorem region_ids_nodup_within_pass_witness :
    ((detectToBoxes
        [{ x := 0, y := 0, pixel_width := 1, pixel_height := 1 },
         { x := 5, y := 5, pixel_width := 2, pixel_height := 2 }]).map RBox.id).Nodup :=
  (region_ids_nodup_within_pass _).1

/-! ### Label assignment and auto-advance (`handleCardSelect`, `QuickLabelBar`)

The scans below are the JS `findIndex` calls of the source.  JS
`findIndex` returns `-1` when nothing matches; scans whose result is only
compared against `-1` are modelled with `Option Nat`, and the one scan
whose numeric value is reused (`currentIdx`) is modelled with `Int`. -/

/-- `boxes.findIndex(b => b.id === selectedBoxId)` — JS `findIndex` as an
`Int`, `-1` when no box matches. -/
def jsFindIndexAux (p : RBox → Bool) : List RBox → Nat → Int
  | [], _ => -1
  | b :: bs, i => if p b then (i : Int) else jsFindIndexAux p bs (i + 1)

def jsFindIndex (p : RBox → Bool) (l : List RBox) : Int := jsFindIndexAux p l 0

/-- `boxes.findIndex((b, i) => i > currentIdx && b.classId === undefined)`:
first position after `currentIdx` holding an unlabeled box. -/
def findIdxAfterUnlabeledAux (currentIdx : Int) : List RBox → Nat → Option Nat
  | [], _ => none
  | b :: bs, i =>
    if currentIdx < (i : Int) ∧ b.classId = none then some i
    else findIdxAfterUnlabeledAux currentIdx bs (i + 1)

def findIdxAfterUnlabeled (boxes : List RBox) (currentIdx : Int) : Option Nat :=
  findIdxAfterUnlabeledAux currentIdx boxes 0

/-- The label-assignment map of `handleCardSelect`: set `classId`/`className`
on the box whose id is the selected one. -/
def assignLabel (boxes : List RBox) (selId : String) (classId : Nat) (card : String) :
    List RBox :=
  boxes.map fun b =>
    if b.id == selId then { b with classId := some classId, className := some card } else b

/-- Result of the `handleCardSelect` handler: the updated collection, the
updated cursor, and the scheduled auto-save delay (ms), if any. -/
structure CardSelectResult where
  boxes : List RBox
  currentBoxIndex : Nat
  saveDelay : Option Nat
deriving DecidableEq

/-- Handler `handleCardSelect` (`TrainingPage` lines 336-369).  With a
selection present it labels the selected box; with auto-advance on it scans
the pre-update collection for the first unlabeled box after the selected
box's index and moves the cursor there; otherwise, when every box of the
updated collection is labeled and auto-capture is on, it schedules
`saveToDataset` after 300 ms. -/
def handleCardSelect (boxes : List RBox) (selectedBoxId : Option String)
    (currentBoxIndex : Nat) (card : String) (classId : Nat)
    (autoAdvance isAutoCapture : Bool) : CardSelectResult :=
  match selectedBoxId with
  | none => ⟨boxes, currentBoxIndex, none⟩
  | some selId =>
    let newBoxes := assignLabel boxes selId classId card
    if autoAdvance then
      let currentIdx := jsFindIndex (fun b => b.id == selId) boxes
      match findIdxAfterUnlabeled boxes currentIdx with
      | some nextUnlabeled => ⟨newBoxes, nextUnlabeled, none⟩
      | none =>
        let updatedBoxes := assignLabel boxes selId classId card
        if updatedBoxes.all (fun b => b.classId.isSome) = true ∧ updatedBoxes ≠ [] ∧
            isAutoCapture = true then
          ⟨newBoxes, currentBoxIndex, some 300⟩
        else ⟨newBoxes, currentBoxIndex, none⟩
    else ⟨newBoxes, currentBoxIndex, none⟩

/-- Auto-advance effect of `QuickLabelBar` (lines 48-61): when the box at the
cursor is labeled, move to the first unlabeled box after the cursor, else to
the first unlabeled box from the start, else stay. -/
def qlbAutoAdvance (boxes : List RBox) (currentIndex : Nat) : Nat :=
  match boxes[currentIndex]? with
  | none => currentIndex
  | some currentBox =>
    if currentBox.classId.isSome then
      match findIdxAfterUnlabeled boxes (currentIndex : Int) with
      | some nextUnlabeled => nextUnlabeled
      | none =>
        match boxes.findIdx? (fun b => b.classId.isNone) with
        | some fromStart => fromStart
        | none => currentIndex
    else currentIndex

/-- Composition of the two cursor updates that follow a label assignment:
the `handleCardSelect` advance and the `QuickLabelBar` effect (the latter
re-runs because labeling the box at the cursor changes the effect's
dependency `currentBox?.classId`, and is the identity whenever its guard
fails). -/
def afterLabelCursor (boxes : List RBox) (selId : String) (cursor : Nat)
    (card : String) (classId : Nat) (autoAdv auto : Bool) : Nat :=
  let r := handleCardSelect boxes (some selId) cursor card classId autoAdv auto
  qlbAutoAdvance r.boxes r.currentBoxIndex

/-- Auto-advance target as worded by the spec: first unlabeled region at an
index strictly greater than the just-labeled one (expressed by dropping the
prefix), found by forward scan. -/
def specFirstUnlabeledAfter (boxes : List RBox) (i : Nat) : Option Nat :=
  ((boxes.drop (i + 1)).findIdx? (fun b => b.classId.isNone)).map (fun k => k + (i + 1))

/-- First unlabeled region from index 0 (the spec's wrap-around scan). -/
def specFirstUnlabeled (boxes : List RBox) : Option Nat :=
  boxes.findIdx? (fun b => b.classId.isNone)

/-- The auto-advance algorithm exactly as the spec words it: scan forward
from the just-labeled index; if nothing is found, wrap and scan from index 0;
if nothing is unlabeled anywhere, stay. -/
def specAutoAdvance (boxes : List RBox) (justLabeled : Nat) : Nat :=
  match specFirstUnlabeledAfter boxes justLabeled with
  | some n => n
  | none =>
    match specFirstUnlabeled boxes with
    | some m => m
    | none => justLabeled

theorem findIdx?_start_some {α : Type} (p : α → Bool) (l : List α) (s k : Nat)
    (h : List.findIdx? p l s = some k) :
    s ≤ k ∧ ∃ a, l[k - s]? = some a ∧ p a = true := by
  induction l generalizing s with
  | nil => simp [List.findIdx?_nil] at h
  | cons x xs ih =>
    rw [List.findIdx?_cons] at h
    by_cases hx : p x = true
    · rw [if_pos hx] at h
      obtain rfl : s = k := by simpa using h
      exact ⟨le_refl s, x, by simp, hx⟩
    · rw [if_neg hx] at h
      obtain ⟨hk, a, ha, hpa⟩ := ih (s + 1) h
      refine ⟨by omega, a, ?_, hpa⟩
      have : k - s = (k - (s + 1)) + 1 := by omega
      rw [this]
      simpa using ha

theorem nodup_getElem?_inj {α : Type} {l : List α} (h : l.Nodup) {i j : Nat} {x : α}
    (hi : l[i]? = some x) (hj : l[j]? = some x) : i = j := by
  obtain ⟨hi1, hi2⟩ := List.getElem?_eq_some.mp hi
  obtain ⟨hj1, hj2⟩ := List.getElem?_eq_some.mp hj
  exact (List.Nodup.getElem_inj_iff h).mp (by rw [hi2, hj2])

theorem findIdx?_shift {α : Type} (p : α → Bool) (l : List α) (s : Nat) :
    List.findIdx? p l s = (List.findIdx? p l).map (fun k => k + s) := by
  induction l generalizing s with
  | nil => simp [List.findIdx?_nil]
  | cons x xs ih =>
    rw [List.findIdx?_cons, List.findIdx?_cons]
    by_cases hx : p x = true
    · simp [hx]
    · rw [if_neg hx, if_neg hx, ih (s + 1), ih 1]
      cases List.findIdx? p xs with
      | none => simp
      | some k =>
        simp only [Option.map_some']
        congr 1
        omega

theorem findIdxAfterUnlabeledAux_high (l : List RBox) (c : Int) (i : Nat) (h : c < (i : Int)) :
    findIdxAfterUnlabeledAux c l i =
      (l.findIdx? (fun b => b.classId.isNone)).map (fun k => k + i) := by
  induction l generalizing i with
  | nil => simp [findIdxAfterUnlabeledAux, List.findIdx?_nil]
  | cons b bs ih =>
    rw [findIdxAfterUnlabeledAux, List.findIdx?_cons]
    by_cases hb : b.classId = none
    · rw [if_pos ⟨h, hb⟩, if_pos (by simp [hb])]
      simp only [Option.map_some']
      congr 1
      omega
    · rw [if_neg (by simp [hb]), if_neg (by simp [Option.isNone_iff_eq_none, hb]),
        ih (i + 1) (by push_cast; omega),
        findIdx?_shift (fun b => b.classId.isNone) bs (0 + 1), Option.map_map]
      cases List.findIdx? (fun b => b.classId.isNone) bs with
      | none => simp
      | some k =>
        simp only [Option.map_some', Function.comp_apply]
        congr 1
        omega

theorem findIdxAfterUnlabeledAux_skip (l : List RBox) (c : Int) (i n : Nat)
    (h : (i : Int) + n ≤ c + 1) :
    findIdxAfterUnlabeledAux c l i = findIdxAfterUnlabeledAux c (l.drop n) (i + n) := by
  induction n generalizing l i with
  | zero => simp
  | succ n ihn =>
    cases l with
    | nil => simp [findIdxAfterUnlabeledAux]
    | cons b bs =>
      rw [findIdxAfterUnlabeledAux,
        if_neg (by intro hcon; have hlt := hcon.1; push_cast at h hlt; omega)]
      rw [List.drop_succ_cons]
      have hstep := ihn bs (i + 1) (by push_cast at h ⊢; omega)
      have harg : i + 1 + n = i + (n + 1) := by omega
      rw [harg] at hstep
      exact hstep

/-- Bridge: the source's indexed forward scan equals the spec's drop-based
forward scan when the reference index is the (natural) cursor. -/
theorem findIdxAfterUnlabeled_eq_spec (l : List RBox) (j : Nat) :
    findIdxAfterUnlabeled l (j : Int) = specFirstUnlabeledAfter l j := by
  unfold findIdxAfterUnlabeled specFirstUnlabeledAfter
  rw [findIdxAfterUnlabeledAux_skip l (j : Int) 0 (j + 1) (by push_cast; omega),
    findIdxAfterUnlabeledAux_high _ _ _ (by push_cast; omega)]
  simp

theorem jsFindIndexAux_eq_findIdx? (p : RBox → Bool) (l : List RBox) (i : Nat) :
    jsFindIndexAux p l i =
      (match List.findIdx? p l i with
       | some k => (k : Int)
       | none => -1) := by
  induction l generalizing i with
  | nil => simp [jsFindIndexAux, List.findIdx?_nil]
  | cons b bs ih =>
    rw [jsFindIndexAux, List.findIdx?_cons]
    by_cases hb : p b = true
    · rw [if_pos hb, if_pos hb]
    · rw [if_neg hb, if_neg hb, ih (i + 1)]

/-- With pairwise-distinct ids, the `findIndex` lookup of the selected box's
id lands exactly on the cursor. -/
theorem findIdx?_selected (boxes : List RBox) (cursor : Nat) (bc : RBox)
    (hcur : boxes[cursor]? = some bc) (hnodup : (boxes.map RBox.id).Nodup) :
    List.findIdx? (fun b => b.id == bc.id) boxes = some cursor := by
  cases hf : List.findIdx? (fun b => b.id == bc.id) boxes with
  | none =>
    rw [List.findIdx?_eq_none_iff] at hf
    have := hf bc (List.getElem?_mem hcur)
    simp at this
  | some k =>
    obtain ⟨-, a, ha, hpa⟩ := findIdx?_start_some _ _ 0 k hf
    rw [Nat.sub_zero] at ha
    have haid : a.id = bc.id := by simpa [beq_iff_eq] using hpa
    have h1 : (boxes.map RBox.id)[k]? = some bc.id := by
      rw [List.getElem?_map, ha, Option.map_some', haid]
    have h2 : (boxes.map RBox.id)[cursor]? = some bc.id := by
      rw [List.getElem?_map, hcur, Option.map_some']
    rw [nodup_getElem?_inj hnodup h1 h2]

theorem jsFindIndex_selected (boxes : List RBox) (cursor : Nat) (bc : RBox)
    (hcur : boxes[cursor]? = some bc) (hnodup : (boxes.map RBox.id).Nodup) :
    jsFindIndex (fun b => b.id == bc.id) boxes = (cursor : Int) := by
  rw [jsFindIndex, jsFindIndexAux_eq_findIdx?, findIdx?_selected boxes cursor bc hcur hnodup]

theorem assignLabel_getElem?_ne (boxes : List RBox) (cursor j : Nat) (bc : RBox)
    (classId : Nat) (card : String)
    (hcur : boxes[cursor]? = some bc) (hnodup : (boxes.map RBox.id).Nodup)
    (hj : j ≠ cursor) :
    (assignLabel boxes bc.id classId card)[j]? = boxes[j]? := by
  rw [assignLabel, List.getElem?_map]
  cases hb : boxes[j]? with
  | none => rfl
  | some b =>
    rw [Option.map_some']
    have hne : b.id ≠ bc.id := by
      intro hid
      apply hj
      have h1 : (boxes.map RBox.id)[j]? = some bc.id := by
        rw [List.getElem?_map, hb, Option.map_some', hid]
      have h2 : (boxes.map RBox.id)[cursor]? = some bc.id := by
        rw [List.getElem?_map, hcur, Option.map_some']
      exact nodup_getElem?_inj hnodup h1 h2
    rw [if_neg (by simpa using hne)]

theorem assignLabel_getElem?_cursor (boxes : List RBox) (cursor : Nat) (bc : RBox)
    (classId : Nat) (card : String) (hcur : boxes[cursor]? = some bc) :
    (assignLabel boxes bc.id classId card)[cursor]? =
      some { bc with classId := some classId, className := some card } := by
  rw [assignLabel, List.getElem?_map, hcur, Option.map_some', if_pos (by simp)]

theorem assignLabel_drop_eq (boxes : List RBox) (cursor : Nat) (bc : RBox)
    (classId : Nat) (card : String)
    (hcur : boxes[cursor]? = some bc) (hnodup : (boxes.map RBox.id).Nodup) :
    (assignLabel boxes bc.id classId card).drop (cursor + 1) = boxes.drop (cursor + 1) := by
  apply List.ext_getElem?
  intro n
  rw [List.getElem?_drop, List.getElem?_drop]
  exact assignLabel_getElem?_ne boxes cursor _ bc classId card hcur hnodup (by omega)

theorem specAfter_assignLabel (boxes : List RBox) (cursor : Nat) (bc : RBox)
    (classId : Nat) (card : String)
    (hcur : boxes[cursor]? = some bc) (hnodup : (boxes.map RBox.id).Nodup) :
    specFirstUnlabeledAfter (assignLabel boxes bc.id classId card) cursor =
      specFirstUnlabeledAfter boxes cursor := by
  unfold specFirstUnlabeledAfter
  rw [assignLabel_drop_eq boxes cursor bc classId card hcur hnodup]

theorem specFirstUnlabeledAfter_some (l : List RBox) (i n : Nat)
    (h : specFirstUnlabeledAfter l i = some n) :
    ∃ a, l[n]? = some a ∧ a.classId = none := by
  unfold specFirstUnlabeledAfter at h
  cases hf : (l.drop (i + 1)).findIdx? (fun b => b.classId.isNone) with
  | none => rw [hf] at h; simp at h
  | some k =>
    rw [hf, Option.map_some'] at h
    obtain rfl : k + (i + 1) = n := by simpa using h
    obtain ⟨-, a, ha, hpa⟩ := findIdx?_start_some _ _ 0 k hf
    rw [Nat.sub_zero, List.getElem?_drop] at ha
    refine ⟨a, ?_, by simpa using hpa⟩
    rw [show k + (i + 1) = i + 1 + k by omega]
    exact ha

theorem specFirstUnlabeled_some (l : List RBox) (m : Nat)
    (h : specFirstUnlabeled l = some m) :
    ∃ a, l[m]? = some a ∧ a.classId = none := by
  obtain ⟨-, a, ha, hpa⟩ := findIdx?_start_some _ _ 0 m h
  rw [Nat.sub_zero] at ha
  exact ⟨a, ha, by simpa using hpa⟩

theorem specFirstUnlabeled_ne_none (l : List RBox)
    (h : ∃ b ∈ l, b.classId = none) : specFirstUnlabeled l ≠ none := by
  unfold specFirstUnlabeled
  rw [ne_eq, List.findIdx?_eq_none_iff]
  intro hall
  obtain ⟨b, hb, hbnone⟩ := h
  have := hall b hb
  simp [hbnone] at this

theorem qlbAutoAdvance_at_unlabeled (l : List RBox) (j : Nat) (a : RBox)
    (ha : l[j]? = some a) (han : a.classId = none) : qlbAutoAdvance l j = j := by
  unfold qlbAutoAdvance
  simp [ha, han]

theorem qlbAutoAdvance_at_labeled (l : List RBox) (j : Nat) (b : RBox)
    (hb : l[j]? = some b) (hlab : b.classId.isSome = true)
    (hrem : ∃ x ∈ l, x.classId = none) :
    qlbAutoAdvance l j = specAutoAdvance l j ∧
    ∃ a, l[specAutoAdvance l j]? = some a ∧ a.classId = none := by
  unfold qlbAutoAdvance specAutoAdvance
  simp only [hb, hlab, if_true, findIdxAfterUnlabeled_eq_spec]
  cases hfwd : specFirstUnlabeledAfter l j with
  | some n =>
    obtain ⟨a, ha, han⟩ := specFirstUnlabeledAfter_some l j n hfwd
    exact ⟨rfl, a, ha, han⟩
  | none =>
    have hw : l.findIdx? (fun b => b.classId.isNone) = specFirstUnlabeled l := rfl
    rw [hw]
    cases hm : specFirstUnlabeled l with
    | none => exact absurd hm (specFirstUnlabeled_ne_none l hrem)
    | some m =>
      obtain ⟨a, ha, han⟩ := specFirstUnlabeled_some l m hm
      exact ⟨rfl, a, ha, han⟩

theorem handleCardSelect_noAdvance (boxes : List RBox) (selId : String) (cursor : Nat)
    (card : String) (classId : Nat) (auto : Bool) :
    handleCardSelect boxes (some selId) cursor card classId false auto =
      ⟨assignLabel boxes selId classId card, cursor, none⟩ := by
  unfold handleCardSelect
  simp

theorem handleCardSelect_advance_found (boxes : List RBox) (selId : String) (cursor : Nat)
    (card : String) (classId : Nat) (auto : Bool) (n : Nat)
    (hscan : findIdxAfterUnlabeled boxes (jsFindIndex (fun b => b.id == selId) boxes) =
      some n) :
    handleCardSelect boxes (some selId) cursor card classId true auto =
      ⟨assignLabel boxes selId classId card, n, none⟩ := by
  unfold handleCardSelect
  simp [hscan]

theorem handleCardSelect_advance_notFound (boxes : List RBox) (selId : String)
    (cursor : Nat) (card : String) (classId : Nat) (auto : Bool)
    (hscan : findIdxAfterUnlabeled boxes (jsFindIndex (fun b => b.id == selId) boxes) =
      none) :
    (handleCardSelect boxes (some selId) cursor card classId true auto).boxes =
      assignLabel boxes selId classId card ∧
    (handleCardSelect boxes (some selId) cursor card classId true auto).currentBoxIndex =
      cursor := by
  unfold handleCardSelect
  simp only [hscan]
  constructor
  · simp only [if_true]
    rw [apply_ite CardSelectResult.boxes, ite_self]
  · simp only [if_true]
    rw [apply_ite CardSelectResult.currentBoxIndex, ite_self]

/-- A desynced labeling state reachable through pointer selection:
`LabelingCanvas` wires `onBoxSelect={setSelectedBoxId}`, which changes the
selection without moving `currentBoxIndex`, and the sync effect does not
re-fire (its dependencies are unchanged).  Here the collection is
`[labeled, unlabeled, unlabeled, unlabeled]`, the cursor is at index 2,
and the pointer selected the box at index 3. -/
def desyncBoxes : List RBox :=
  [{ id := "b0", x := 0, y := 0, width := 1, height := 1, classId := some 5 },
   { id := "b1", x := 2, y := 0, width := 1, height := 1, classId := none },
   { id := "b2", x := 4, y := 0, width := 1, height := 1, classId := none },
   { id := "b3", x := 6, y := 0, width := 1, height := 1, classId := none }]

/-- C2 (counterexample).  The claim covers every successful label assignment,
but when the selection has been pointer-desynced from the cursor the code
does not follow the claimed algorithm: labeling the selected box at index 3
(so the just-labeled region's index is 3) finds no unlabeled box after
index 3, `handleCardSelect` leaves the cursor at 2, and the `QuickLabelBar`
effect does not move it (its dependency, the cursor box's class, is
unchanged) — while the claimed forward-scan-else-wrap from index 3 dictates
index 1, and unlabeled regions remain. -/
theorem cursor_not_spec_chosen_counterexample :
    jsFindIndex (fun b => b.id == "b3") desyncBoxes = 3 ∧
    afterLabelCursor desyncBoxes "b3" 2 "As" 38 true false = 2 ∧
    specAutoAdvance (assignLabel desyncBoxes "b3" 38 "As") 3 = 1 ∧
    (∃ b ∈ assignLabel desyncBoxes "b3" 38 "As", b.classId = none) := by
  refine ⟨rfl, rfl, rfl, ?_⟩
  refine ⟨{ id := "b1", x := 2, y := 0, width := 1, height := 1, classId := none },
    by decide, rfl⟩

/-- C2 (amended).  After a successful label assignment *to the region at the
cursor* — the situation the selection-sync effect maintains, and the one the
spec's auto-advance flow describes — when at least one unlabeled region
remains, the cursor lands on an unlabeled region chosen exactly as the spec
describes: first unlabeled region after the just-labeled index, else first
unlabeled region from index 0.  When pointer selection has desynced the
selection from the cursor, the code can instead leave the cursor where it
was (see the counterexample).  The hypothesis `bc.classId ≠ some classId` is
what makes the `QuickLabelBar` effect's dependency (`currentBox?.classId`)
change, so that the effect re-runs. -/
theorem cursor_lands_on_unlabeled (boxes : List RBox) (cursor : Nat)
    (card : String) (classId : Nat) (autoAdv auto : Bool) (bc : RBox)
    (hcur : boxes[cursor]? = some bc)
    (hnodup : (boxes.map RBox.id).Nodup)
    (hchange : bc.classId ≠ some classId)
    (hrem : ∃ b ∈ assignLabel boxes bc.id classId card, b.classId = none) :
    afterLabelCursor boxes bc.id cursor card classId autoAdv auto =
      specAutoAdvance (assignLabel boxes bc.id classId card) cursor ∧
    ∃ b, (assignLabel boxes bc.id classId card)[afterLabelCursor boxes bc.id cursor card
        classId autoAdv auto]? = some b ∧ b.classId = none := by
  have hcur' : (assignLabel boxes bc.id classId card)[cursor]? =
      some { bc with classId := some classId, className := some card } :=
    assignLabel_getElem?_cursor boxes cursor bc classId card hcur
  have hlabeledStep := qlbAutoAdvance_at_labeled (assignLabel boxes bc.id classId card)
    cursor _ hcur' (by simp) hrem
  cases autoAdv with
  | false =>
    have hafter : afterLabelCursor boxes bc.id cursor card classId false auto =
        qlbAutoAdvance (assignLabel boxes bc.id classId card) cursor := by
      simp only [afterLabelCursor]
      rw [handleCardSelect_noAdvance]
    rw [hafter]
    refine ⟨hlabeledStep.1, ?_⟩
    rw [hlabeledStep.1]
    exact hlabeledStep.2
  | true =>
    have hscan : findIdxAfterUnlabeled boxes (jsFindIndex (fun b => b.id == bc.id) boxes) =
        specFirstUnlabeledAfter (assignLabel boxes bc.id classId card) cursor := by
      rw [jsFindIndex_selected boxes cursor bc hcur hnodup, findIdxAfterUnlabeled_eq_spec,
        specAfter_assignLabel boxes cursor bc classId card hcur hnodup]
    cases hfwd : specFirstUnlabeledAfter (assignLabel boxes bc.id classId card) cursor with
    | some n =>
      obtain ⟨a, ha, han⟩ :=
        specFirstUnlabeledAfter_some (assignLabel boxes bc.id classId card) cursor n hfwd
      have hsadv : specAutoAdvance (assignLabel boxes bc.id classId card) cursor = n := by
        unfold specAutoAdvance
        rw [hfwd]
      have hafter : afterLabelCursor boxes bc.id cursor card classId true auto = n := by
        simp only [afterLabelCursor]
        rw [handleCardSelect_advance_found boxes bc.id cursor card classId auto n
          (hscan.trans hfwd)]
        exact qlbAutoAdvance_at_unlabeled (assignLabel boxes bc.id classId card) n a ha han
      rw [hafter, hsadv]
      exact ⟨rfl, a, ha, han⟩
    | none =>
      obtain ⟨hbx, hix⟩ := handleCardSelect_advance_notFound boxes bc.id cursor card classId
        auto (hscan.trans hfwd)
      have hafter : afterLabelCursor boxes bc.id cursor card classId true auto =
          qlbAutoAdvance (assignLabel boxes bc.id classId card) cursor := by
        simp only [afterLabelCursor]
        rw [hbx, hix]
      rw [hafter]
      refine ⟨hlabeledStep.1, ?_⟩
      rw [hlabeledStep.1]
      exact hlabeledStep.2

theorem cursor_lands_on_unlabeled_witness :
    afterLabelCursor
        [{ id := "a0", x := 0, y := 0, width := 1, height := 1, classId := none },
         { id := "a1", x := 2, y := 0, width := 1, height := 1, classId := none }]
        "a1" 1 "As" 38 true false =
      specAutoAdvance
        (assignLabel
          [{ id := "a0", x := 0, y := 0, width := 1, height := 1, classId := none },
           { id := "a1", x := 2, y := 0, width := 1, height := 1, classId := none }]
          "a1" 38 "As") 1 :=
  (cursor_lands_on_unlabeled
    [{ id := "a0", x := 0, y := 0, width := 1, height := 1, classId := none },
     { id := "a1", x := 2, y := 0, width := 1, height := 1, classId := none }]
    1 "As" 38 true false
    { id := "a1", x := 2, y := 0, width := 1, height := 1, classId := none }
    (by decide) (by decide) (by decide)
    ⟨{ id := "a0", x := 0, y := 0, width := 1, height := 1, classId := none },
      by decide, rfl⟩).1

/-! ### Claim C8: automatic save on session completion -/

/-- Auto-save decision of `autoDetect` (lines 304-309): when every detected
box is already labeled, the collection is non-empty and auto-capture is on,
a save is scheduled after 500 ms. -/
def autoDetectSaveDelay (newBoxes : List RBox) (isAutoCapture : Bool) : Option Nat :=
  if (newBoxes.all fun b => b.classId.isSome) = true ∧ newBoxes ≠ [] ∧
      isAutoCapture = true then some 500
  else none

theorem handleCardSelect_noSelection (boxes : List RBox) (cursor : Nat)
    (card : String) (classId : Nat) (aAdv auto : Bool) :
    handleCardSelect boxes none cursor card classId aAdv auto = ⟨boxes, cursor, none⟩ :=
  rfl

theorem handleCardSelect_advance_notFound_save (boxes : List RBox) (selId : String)
    (cursor : Nat) (card : String) (classId : Nat) (auto : Bool)
    (hscan : findIdxAfterUnlabeled boxes (jsFindIndex (fun b => b.id == selId) boxes) =
      none) :
    (handleCardSelect boxes (some selId) cursor card classId true auto).saveDelay =
      (if ((assignLabel boxes selId classId card).all fun b => b.classId.isSome) = true ∧
          assignLabel boxes selId classId card ≠ [] ∧ auto = true then some 300
       else none) := by
  unfold handleCardSelect
  simp only [hscan, if_true]
  rw [apply_ite CardSelectResult.saveDelay]

theorem specAfter_none_of_all (l : List RBox) (i : Nat)
    (h : (l.all fun b => b.classId.isSome) = true) :
    specFirstUnlabeledAfter l i = none := by
  unfold specFirstUnlabeledAfter
  rw [List.findIdx?_eq_none_iff.mpr]
  · rfl
  · intro x hx
    have hmem := List.mem_of_mem_drop hx
    have := (List.all_eq_true.mp h) x hmem
    simp only [Option.isNone]
    cases hcx : x.classId with
    | none => rw [hcx] at this; simp at this
    | some v => rfl

/-- C8 (confirmed).  An automatic save is triggered by a label assignment only
when auto-capture is on, only with the fixed 300 ms settle delay, and only
when the assignment leaves every region of the (non-empty) collection
labeled; in manual mode no save is ever triggered, and the detection-pass
auto-save (500 ms) obeys the same gating.  Conversely, in auto-capture mode
with auto-advance on, labeling the region at the cursor so that every region
becomes labeled does schedule the 300 ms save. -/
theorem autosave_only_on_completion :
    (∀ (boxes : List RBox) (sel : Option String) (cursor : Nat) (card : String)
        (classId : Nat) (aAdv auto : Bool) (d : Nat),
        (handleCardSelect boxes sel cursor card classId aAdv auto).saveDelay = some d →
        auto = true ∧ d = 300 ∧
        ((handleCardSelect boxes sel cursor card classId aAdv auto).boxes.all
          fun b => b.classId.isSome) = true ∧
        (handleCardSelect boxes sel cursor card classId aAdv auto).boxes ≠ []) ∧
    (∀ (boxes : List RBox) (sel : Option String) (cursor : Nat) (card : String)
        (classId : Nat) (aAdv : Bool),
        (handleCardSelect boxes sel cursor card classId aAdv false).saveDelay = none) ∧
    (∀ (newBoxes : List RBox) (d : Nat),
        autoDetectSaveDelay newBoxes true = some d →
        d = 500 ∧ (newBoxes.all fun b => b.classId.isSome) = true ∧ newBoxes ≠ []) ∧
    (∀ newBoxes : List RBox, autoDetectSaveDelay newBoxes false = none) ∧
    (∀ (boxes : List RBox) (cursor : Nat) (card : String) (classId : Nat) (bc : RBox),
        boxes[cursor]? = some bc → (boxes.map RBox.id).Nodup →
        ((assignLabel boxes bc.id classId card).all fun b => b.classId.isSome) = true →
        (handleCardSelect boxes (some bc.id) cursor card classId true true).saveDelay =
          some 300) := by
  refine ⟨?_, ?_, ?_, ?_, ?_⟩
  · intro boxes sel cursor card classId aAdv auto d h
    cases sel with
    | none => rw [handleCardSelect_noSelection] at h; simp at h
    | some selId =>
      cases aAdv with
      | false => rw [handleCardSelect_noAdvance] at h; simp at h
      | true =>
        cases hscan : findIdxAfterUnlabeled boxes
            (jsFindIndex (fun b => b.id == selId) boxes) with
        | some n =>
          rw [handleCardSelect_advance_found boxes selId cursor card classId auto n hscan]
            at h
          simp at h
        | none =>
          rw [handleCardSelect_advance_notFound_save boxes selId cursor card classId auto
            hscan] at h
          by_cases hc : ((assignLabel boxes selId classId card).all
              fun b => b.classId.isSome) = true ∧
              assignLabel boxes selId classId card ≠ [] ∧ auto = true
          · rw [if_pos hc] at h
            obtain ⟨hall, hne, hauto⟩ := hc
            obtain rfl : (300 : Nat) = d := by simpa using h
            obtain ⟨hbx, -⟩ := handleCardSelect_advance_notFound boxes selId cursor card
              classId auto hscan
            rw [hbx]
            exact ⟨hauto, rfl, hall, hne⟩
          · rw [if_neg hc] at h
            simp at h
  · intro boxes sel cursor card classId aAdv
    cases sel with
    | none => rw [handleCardSelect_noSelection]
    | some selId =>
      cases aAdv with
      | false => rw [handleCardSelect_noAdvance]
      | true =>
        cases hscan : findIdxAfterUnlabeled boxes
            (jsFindIndex (fun b => b.id == selId) boxes) with
        | some n =>
          rw [handleCardSelect_advance_found boxes selId cursor card classId false n hscan]
        | none =>
          rw [handleCardSelect_advance_notFound_save boxes selId cursor card classId false
            hscan, if_neg]
          simp
  · intro newBoxes d h
    unfold autoDetectSaveDelay at h
    by_cases hc : (newBoxes.all fun b => b.classId.isSome) = true ∧ newBoxes ≠ [] ∧
        (true : Bool) = true
    · rw [if_pos hc] at h
      exact ⟨by simpa using h.symm, hc.1, hc.2.1⟩
    · rw [if_neg hc] at h
      simp at h
  · intro newBoxes
    unfold autoDetectSaveDelay
    rw [if_neg]
    simp
  · intro boxes cursor card classId bc hcur hnodup hall
    have hscan : findIdxAfterUnlabeled boxes
        (jsFindIndex (fun b => b.id == bc.id) boxes) = none := by
      rw [jsFindIndex_selected boxes cursor bc hcur hnodup, findIdxAfterUnlabeled_eq_spec,
        ← specAfter_assignLabel boxes cursor bc classId card hcur hnodup]
      exact specAfter_none_of_all _ cursor hall
    rw [handleCardSelect_advance_notFound_save boxes bc.id cursor card classId true hscan,
      if_pos]
    refine ⟨hall, ?_, rfl⟩
    intro hnil
    have hlen := congrArg List.length hnil
    rw [assignLabel, List.length_map] at hlen
    have hlt := (List.getElem?_eq_some.mp hcur).1
    simp only [List.length_nil] at hlen
    omega

theorem autosave_only_on_completion_witness :
    (handleCardSelect
        [{ id := "b0", x := 0, y := 0, width := 1, height := 1, classId := none }]
        (some "b0") 0 "As" 38 true true).saveDelay = some 300 :=
  autosave_only_on_completion.2.2.2.2
    [{ id := "b0", x := 0, y := 0, width := 1, height := 1, classId := none }]
    0 "As" 38 { id := "b0", x := 0, y := 0, width := 1, height := 1, classId := none }
    (by decide) (by decide) (by decide)

/-! ### Dataset persist (`saveToDataset`, claims C4 and C5) -/

/-- One entry of the persist request body: class id plus normalized
geometry. -/
structure NormBox where
  class_id : Nat
  x_center : ℚ
  y_center : ℚ
  width : ℚ
  height : ℚ
deriving DecidableEq

/-- Observable outcome of one `saveToDataset` call before any response
arrives: the silent early return (no image or empty collection), the
validation stop (with or without the alert), or the transport request.
No outcome mutates the labeling state. -/
inductive SaveOutcome where
  | earlyReturn
  | validationStop (alerted : Bool)
  | request (boxes : List NormBox) (source : String)
deriving DecidableEq

/-- Geometry normalization of `saveToDataset` (lines 392-398): center
coordinates and size as fractions of the image dimensions.  `b.classId!` is
modelled as `getD 0`; the caller filters to labeled boxes first, so the
default is never taken. -/
def normBox (imageWidth imageHeight : ℚ) (b : RBox) : NormBox :=
  { class_id := b.classId.getD 0,
    x_center := (b.x + b.width / 2) / imageWidth,
    y_center := (b.y + b.height / 2) / imageHeight,
    width := b.width / imageWidth,
    height := b.height / imageHeight }

/-- `saveToDataset` (lines 377-408) up to the transport call: guard on a
captured image and a non-empty collection (silent return), filter to labeled
boxes, alert-and-abort when none is labeled (the alert only outside
auto-capture mode), otherwise post the normalized boxes with source
`browser`. -/
def saveToDataset (capturedImage : Option String) (boxesToSave : Option (List RBox))
    (stateBoxes : List RBox) (isAutoCapture : Bool)
    (imageWidth imageHeight : ℚ) : SaveOutcome :=
  let saveBoxes := boxesToSave.getD stateBoxes
  if capturedImage = none ∨ saveBoxes = [] then .earlyReturn
  else
    let labeledBoxes := saveBoxes.filter (fun b => b.classId.isSome)
    if labeledBoxes = [] then .validationStop !isAutoCapture
    else .request (labeledBoxes.map (normBox imageWidth imageHeight)) "browser"

/-- C4 (counterexample).  The claim "persist with no labeled region always
fails with ValidationError reported to the caller" fails on the code: with an
empty collection the function returns before the validation check and reports
nothing, and in auto-capture mode the validation failure is deliberately
silent (`if (!isAutoCapture) alert(...)`). -/
theorem persist_silent_rejection_counterexample :
    saveToDataset (some "img") none [] false 800 600 = .earlyReturn ∧
    saveToDataset (some "img") none [] false 800 600 ≠ .validationStop true ∧
    saveToDataset (some "img") none
        [{ id := "u0", x := 0, y := 0, width := 1, height := 1, classId := none }]
        true 800 600 = .validationStop false := by
  refine ⟨rfl, ?_, ?_⟩
  · intro hcon
    exact SaveOutcome.noConfusion hcon
  · rfl

/-- C4 (amended).  `persist` with no labeled region never issues the
transport request (the rejection leaves state untouched in every case), and
the ValidationError alert is raised exactly when the collection is non-empty,
an image is present, and auto-capture mode is off; otherwise the rejection is
silent. -/
theorem persist_rejects_empty_label_set (img : Option String)
    (boxesToSave : Option (List RBox)) (stateBoxes : List RBox) (auto : Bool)
    (w h : ℚ)
    (hempty : (boxesToSave.getD stateBoxes).filter (fun b => b.classId.isSome) = []) :
    (∀ nb src, saveToDataset img boxesToSave stateBoxes auto w h ≠ .request nb src) ∧
    (saveToDataset img boxesToSave stateBoxes auto w h = .validationStop true ↔
      img ≠ none ∧ boxesToSave.getD stateBoxes ≠ [] ∧ auto = false) := by
  simp only [saveToDataset]
  by_cases hearly : img = none ∨ boxesToSave.getD stateBoxes = []
  · rw [if_pos hearly]
    refine ⟨fun nb src => by simp, ?_⟩
    constructor
    · intro hcon
      simp at hcon
    · rintro ⟨h1, h2, -⟩
      rcases hearly with h | h
      · exact absurd h h1
      · exact absurd h h2
  · rw [if_neg hearly, if_pos hempty]
    push_neg at hearly
    refine ⟨fun nb src => by simp, ?_⟩
    constructor
    · intro hcon
      refine ⟨hearly.1, hearly.2, ?_⟩
      cases auto with
      | false => rfl
      | true => simp at hcon
    · rintro ⟨-, -, hauto⟩
      rw [hauto]
      rfl

theorem persist_rejects_empty_label_set_witness :
    saveToDataset (some "img") none
        [{ id := "u0", x := 0, y := 0, width := 1, height := 1, classId := none }]
        false 800 600 = .validationStop true :=
  (persist_rejects_empty_label_set (some "img") none
    [{ id := "u0", x := 0, y := 0, width := 1, height := 1, classId := none }]
    false 800 600 (by decide)).2.mpr ⟨by decide, by decide, rfl⟩

/-- C5 (counterexample).  In the spec's 800×600 end-to-end example the
submitted `y_center` is exactly (100 + 60/2) / 600 = 13/60 = 0.21666…, not
the claimed 0.2167 (which is its 4-decimal rounding). -/
theorem persist_y_center_exact_counterexample :
    saveToDataset (some "img")
        (some (detectToBoxes
          [{ x := 100, y := 100, pixel_width := 40, pixel_height := 60,
             suggested_class := some "Ah" }]))
        [] true 800 600 =
      .request
        [{ class_id := 38, x_center := 3 / 20, y_center := 13 / 60,
           width := 1 / 20, height := 1 / 10 }] "browser" ∧
    (13 / 60 : ℚ) ≠ 2167 / 10000 := by
  have hcid : CLASS_TO_ID "Ah" = some 38 := by decide
  constructor
  · simp only [saveToDataset, detectToBoxes, detectToBoxesAux, detRegionToBox,
      Option.getD_some, Option.some_bind, hcid]
    rw [if_neg (by simp), if_neg (by simp [Option.isSome])]
    simp only [List.map_cons, List.map_nil, SaveOutcome.request.injEq,
      List.cons.injEq, and_true]
    unfold normBox
    norm_num [NormBox.mk.injEq]
  · norm_num

/-- C5 (amended).  For every detected region carrying a suggested class that
`CLASS_TO_ID` resolves, the persist pipeline submits
`x_center = (x + width/2) / imageWidth`, `y_center = (y + height/2) /
imageHeight`, `width = width / imageWidth`, `height = height / imageHeight`
with the resolved class id; in the 800×600 example the submitted values are
exactly `(id("Ah") = 38, 3/20, 13/60, 1/20, 1/10)`, and `13/60` rounds to the
spec's `0.2167` (it differs from it by less than half of 10⁻⁴). -/
theorem persist_normalizes_geometry (img : String) (r : DetRegion) (c : String)
    (cid : Nat) (auto : Bool) (w h : ℚ)
    (hc : r.suggested_class = some c) (hcid : CLASS_TO_ID c = some cid) :
    saveToDataset (some img) (some (detectToBoxes [r])) [] auto w h =
      .request
        [{ class_id := cid,
           x_center := (r.x + r.pixel_width / 2) / w,
           y_center := (r.y + r.pixel_height / 2) / h,
           width := r.pixel_width / w,
           height := r.pixel_height / h }] "browser" ∧
    CLASS_TO_ID "Ah" = some 38 ∧
    2167 / 10000 - 1 / 20000 < (13 / 60 : ℚ) ∧ (13 / 60 : ℚ) < 2167 / 10000 + 1 / 20000 := by
  refine ⟨?_, by decide, by norm_num, by norm_num⟩
  simp only [saveToDataset, detectToBoxes, detectToBoxesAux, detRegionToBox,
    Option.getD_some, hc, Option.some_bind, hcid]
  rw [if_neg (by simp), if_neg (by simp [Option.isSome])]
  simp [normBox]

theorem persist_normalizes_geometry_witness :
    saveToDataset (some "img")
        (some (detectToBoxes
          [{ x := 100, y := 100, pixel_width := 40, pixel_height := 60,
             suggested_class := some "Ah" }]))
        [] true 800 600 =
      .request
        [{ class_id := 38,
           x_center := (100 + 40 / 2) / 800,
           y_center := (100 + 60 / 2) / 600,
           width := 40 / 800,
           height := 60 / 600 }] "browser" :=
  (persist_normalizes_geometry "img"
    { x := 100, y := 100, pixel_width := 40, pixel_height := 60,
      suggested_class := some "Ah" }
    "Ah" 38 true 800 600 rfl (by decide)).1

/-! ### Claim C7: the two-stage quick-label input (`CardSelector`)

The `CardSelector` keeps a pending rank and the time of the last key press.
A suit key is accepted when it arrives within 2000 ms of `lastKeyTime`,
and a separate 2000 ms timeout clears the pending rank.  That timeout is an
effect with dependency array `[pendingRank]`, so React restarts it only when
the *value* of the pending rank changes; a repeated identical rank updates
`lastKeyTime` but leaves the running discard timer in place.  Both timings
are modelled below with explicit millisecond timestamps, the discard timer
as an absolute deadline fired before any later key event. -/

/-- `RANK_KEYS` of `CardSelector`. -/
def RANK_KEYS : List (String × String) :=
  [("a", "A"), ("A", "A"), ("k", "K"), ("K", "K"), ("q", "Q"), ("Q", "Q"),
   ("j", "J"), ("J", "J"), ("t", "T"), ("T", "T"), ("0", "T"),
   ("9", "9"), ("8", "8"), ("7", "7"), ("6", "6"), ("5", "5"), ("4", "4"),
   ("3", "3"), ("2", "2")]

/-- `SUIT_KEYS` of `CardSelector`. -/
def SUIT_KEYS : List (String × String) :=
  [("s", "s"), ("S", "s"), ("h", "h"), ("H", "h"), ("d", "d"), ("D", "d"),
   ("c", "c"), ("C", "c")]

def rankLookup (key : String) : Option String :=
  (RANK_KEYS.find? (fun p => p.1 == key)).map Prod.snd

def suitLookup (key : String) : Option String :=
  (SUIT_KEYS.find? (fun p => p.1 == key)).map Prod.snd

/-- State of the quick-label input: the buffered rank, the time of the last
rank key press (`lastKeyTime`), and the absolute deadline of the pending-rank
discard timeout (the `setTimeout` of the `[pendingRank]` effect). -/
structure QLState where
  pendingRank : Option String
  lastKeyTime : Nat
  timerDeadline : Option Nat
deriving DecidableEq

def initQL : QLState := { pendingRank := none, lastKeyTime := 0, timerDeadline := none }

/-- `handleKeyDown` of `CardSelector` (lines 103-136) plus the timer
bookkeeping of the `[pendingRank]` effect (lines 143-151): a rank key buffers
the rank and stamps the time, restarting the discard timer only when the
pending value changes; a suit key with a pending rank emits the composed card
when within 2000 ms of the last key time, and always clears the pending rank;
Escape clears the pending rank. -/
def handleKeyDown (s : QLState) (key : String) (now : Nat) :
    QLState × Option String :=
  match rankLookup key with
  | some rank =>
    ({ pendingRank := some rank,
       lastKeyTime := now,
       timerDeadline :=
         if s.pendingRank = some rank then s.timerDeadline else some (now + 2000) },
     none)
  | none =>
    match suitLookup key, s.pendingRank with
    | some suit, some pr =>
      if now - s.lastKeyTime < 2000 then
        ({ pendingRank := none, lastKeyTime := s.lastKeyTime, timerDeadline := none },
         some (pr ++ suit))
      else
        ({ pendingRank := none, lastKeyTime := s.lastKeyTime, timerDeadline := none },
         none)
    | _, _ =>
      if key == "Escape" then
        ({ s with pendingRank := none, timerDeadline := none }, none)
      else (s, none)

/-- Fire the discard timeout when its deadline has passed by time `t`. -/
def expireQL (s : QLState) (t : Nat) : QLState :=
  match s.timerDeadline with
  | some d => if d ≤ t then { s with pendingRank := none, timerDeadline := none } else s
  | none => s

/-- One key event at time `t`: the single-threaded event loop delivers the
timeout callback before any later key event. -/
def qlStep (s : QLState) (key : String) (t : Nat) : QLState × Option String :=
  handleKeyDown (expireQL s t) key t

/-- Run a sequence of timestamped key events, collecting the emitted cards. -/
def qlRun : QLState → List (String × Nat) → QLState × List String
  | s, [] => (s, [])
  | s, e :: es =>
    match qlStep s e.1 e.2 with
    | (s1, out) =>
      match qlRun s1 es with
      | (s2, outs) => (s2, out.toList ++ outs)

theorem expireQL_pending_cases (s : QLState) (t : Nat) :
    (expireQL s t).pendingRank = s.pendingRank ∨ (expireQL s t).pendingRank = none := by
  cases h : s.timerDeadline with
  | none =>
    left
    simp [expireQL, h]
  | some d =>
    by_cases hd : d ≤ t
    · right
      simp [expireQL, h, hd]
    · left
      simp [expireQL, h, hd]

theorem qlStep_rank (s : QLState) (rkey r : String) (t : Nat)
    (hr : rankLookup rkey = some r) (hfresh : s.pendingRank ≠ some r) :
    qlStep s rkey t =
      ({ pendingRank := some r, lastKeyTime := t, timerDeadline := some (t + 2000) },
       none) := by
  unfold qlStep handleKeyDown
  simp only [hr]
  rw [if_neg]
  rcases expireQL_pending_cases s t with h | h
  · rw [h]
    exact hfresh
  · rw [h]
    simp

theorem qlStep_suit_hit (s : QLState) (skey su pr : String) (t dl : Nat)
    (hrn : rankLookup skey = none) (hs : suitLookup skey = some su)
    (hp : s.pendingRank = some pr) (hddl : s.timerDeadline = some dl) (hdt : t < dl)
    (hwin : t - s.lastKeyTime < 2000) :
    qlStep s skey t =
      ({ pendingRank := none, lastKeyTime := s.lastKeyTime, timerDeadline := none },
       some (pr ++ su)) := by
  unfold qlStep expireQL
  simp only [hddl]
  rw [if_neg (by omega)]
  unfold handleKeyDown
  simp only [hrn, hs, hp]
  rw [if_pos hwin]

theorem qlStep_suit_after_expiry (s : QLState) (skey su : String) (t dl : Nat)
    (hrn : rankLookup skey = none) (hs : suitLookup skey = some su)
    (hddl : s.timerDeadline = some dl) (hdt : dl ≤ t)
    (hesc : (skey == "Escape") = false) :
    qlStep s skey t = ({ s with pendingRank := none, timerDeadline := none }, none) := by
  unfold qlStep expireQL
  simp only [hddl]
  rw [if_pos hdt]
  unfold handleKeyDown
  simp only [hrn, hs]
  rw [if_neg (by simp at hesc ⊢; exact hesc)]

/-- C7 (counterexample).  The claim "pressing a rank key and then a suit key
within the fixed timeout window assigns the composed label" and "a new rank
keypress always replaces any prior pending rank and resets the timeout" fail
on the code: pressing `a` at 0 ms and `a` again at 1500 ms does not restart
the discard timeout (the `[pendingRank]` effect's dependency value does not
change), so the pending rank is discarded at 2000 ms and a suit key at
2200 ms — 700 ms after the last rank press, well inside the 2000 ms
window — assigns nothing. -/
theorem quick_label_same_rank_counterexample :
    (qlRun initQL [("a", 0), ("a", 1500), ("s", 2200)]).2 = [] ∧
    2200 - 1500 < 2000 := by
  constructor
  · rfl
  · decide

/-- C7 (amended).  With a fresh rank (one that differs from any buffered
pending rank, so that the discard timer restarts): (a) rank then suit within
2000 ms of the rank press assigns the composed label; (b) if 2000 ms or more
elapse before the suit key, the pending rank has been discarded and no label
is assigned; (c) a rank keypress with a *different* rank replaces the pending
rank, restamps the key time and resets the discard deadline.  (A repeated
identical rank does not reset the discard timer; see the counterexample.) -/
theorem quick_label_two_stage (s : QLState) (rkey r skey su rkey2 r2 : String)
    (t t' : Nat)
    (hr : rankLookup rkey = some r) (hfresh : s.pendingRank ≠ some r)
    (hrn : rankLookup skey = none) (hs : suitLookup skey = some su)
    (hr2 : rankLookup rkey2 = some r2) (hne : r2 ≠ r)
    (hle : t ≤ t') :
    (t' < t + 2000 →
      (qlRun s [(rkey, t), (skey, t')]).2 = [r ++ su]) ∧
    (t + 2000 ≤ t' →
      (qlRun s [(rkey, t), (skey, t')]).2 = [] ∧
      (qlRun s [(rkey, t), (skey, t')]).1.pendingRank = none) ∧
    ((qlRun s [(rkey, t), (rkey2, t')]).1 =
      { pendingRank := some r2, lastKeyTime := t', timerDeadline := some (t' + 2000) }) := by
  have hstep1 := qlStep_rank s rkey r t hr hfresh
  have hesc : (skey == "Escape") = false := by
    by_cases he : skey = "Escape"
    · rw [he] at hs
      rw [show suitLookup "Escape" = none from rfl] at hs
      exact Option.noConfusion hs
    · simpa using he
  refine ⟨?_, ?_, ?_⟩
  · intro hwin
    have hstep2 := qlStep_suit_hit
      { pendingRank := some r, lastKeyTime := t, timerDeadline := some (t + 2000) }
      skey su r t' (t + 2000) hrn hs rfl rfl hwin (by simp; omega)
    simp only [qlRun, hstep1, hstep2]
    rfl
  · intro hlate
    have hstep2 := qlStep_suit_after_expiry
      { pendingRank := some r, lastKeyTime := t, timerDeadline := some (t + 2000) }
      skey su t' (t + 2000) hrn hs rfl hlate hesc
    simp only [qlRun, hstep1, hstep2]
    constructor <;> trivial
  · have hstep2 := qlStep_rank
      { pendingRank := some r, lastKeyTime := t, timerDeadline := some (t + 2000) }
      rkey2 r2 t' hr2 (by simpa using fun h => hne h.symm)
    simp only [qlRun, hstep1, hstep2]

theorem quick_label_two_stage_witness :
    (qlRun initQL [("a", 0), ("s", 700)]).2 = ["A" ++ "s"] :=
  (quick_label_two_stage initQL "a" "A" "s" "s" "k" "K" 0 700
    (by decide) (by decide) (by decide) (by decide) (by decide) (by decide)
    (by decide)).1 (by decide)

/-! ### The streaming client (`useWebSocket`) and the analyze loop (claims C3, C6)

Sockets are numbered by creation order; `socks` records each socket's
readyState-like lifecycle state (`connecting → opened → closing → closed`,
where `closing` means the close event has not yet been delivered).  Handlers
installed by `connect()` stay attached to their socket for its whole life,
exactly as in the source: in particular `ws.onclose` always nulls
`wsRef.current`, sets status to disconnected and schedules a reconnect
timeout — also when it fires after `disconnect()` closed the socket.
`reconnectTimeoutRef` is overwritten by each `onclose` without clearing the
previous timeout, so `pendingTimers` counts scheduled timeouts and `refLive`
says whether the ref still points at one of them (only that one can be
cancelled by `disconnect()`). -/

inductive SockState where
  | connecting
  | opened
  | closing
  | closed
deriving DecidableEq

inductive ConnStatus where
  | disconnected
  | connecting
  | connected
  | error
deriving DecidableEq

structure WSState where
  socks : List SockState
  wsRef : Option Nat
  status : ConnStatus
  pendingTimers : Nat
  refLive : Bool
deriving DecidableEq

def initWS : WSState :=
  { socks := [], wsRef := none, status := .disconnected, pendingTimers := 0,
    refLive := false }

/-- Lifecycle state of socket `i`; sockets that were never created count as
closed. -/
def sockAt (s : WSState) (i : Nat) : SockState := s.socks.getD i .closed

/-- `wsRef.current?.readyState`, as an optional socket state. -/
def refState (s : WSState) : Option SockState := s.wsRef.map (sockAt s)

inductive WSEvent where
  | connectCall
  | openEvt (i : Nat)
  | errorEvt (i : Nat)
  | closeEvt (i : Nat)
  | disconnectCall
  | timerFire (isRef : Bool)
  | tick (hasFrame : Bool)
deriving DecidableEq

inductive WSOut where
  | attempt (i : Nat)
  | sent
deriving DecidableEq

/-- `connect()` (lines 20-65): a no-op while the referenced socket is OPEN;
otherwise it sets status to connecting and creates a fresh socket, which
becomes the referenced one. -/
def connectEffect (s : WSState) : WSState × List WSOut :=
  if refState s = some .opened then (s, [])
  else
    ({ s with
        socks := s.socks ++ [.connecting],
        wsRef := some s.socks.length,
        status := .connecting },
     [.attempt s.socks.length])

/-- First statements of `disconnect()` (lines 67-71): when the ref holds a
pending reconnect timeout, cancel it and clear the ref. -/
def disconnectTimer (s : WSState) : WSState :=
  if s.refLive then
    { s with pendingTimers := s.pendingTimers - 1, refLive := false }
  else s

/-- One event of the embedded client.  Socket events are delivered by the
environment subject to lifecycle guards; `disconnectCall` is the
`disconnect()` callback (cancel the referenced timeout, `close()` the
referenced socket, null the ref, force status disconnected); `timerFire`
fires a scheduled reconnect timeout (the referenced one or an orphaned one);
`tick` is one App analyze step, whose `sendFrame` transmits only when the
referenced socket is OPEN. -/
def step (s : WSState) : WSEvent → WSState × List WSOut
  | .connectCall => connectEffect s
  | .openEvt i =>
    if sockAt s i = .connecting then
      ({ s with socks := s.socks.set i .opened, status := .connected }, [])
    else (s, [])
  | .errorEvt i =>
    if sockAt s i = .connecting ∨ sockAt s i = .opened then
      ({ s with socks := s.socks.set i .closing, status := .error }, [])
    else (s, [])
  | .closeEvt i =>
    if sockAt s i ≠ .closed then
      ({ s with
          socks := s.socks.set i .closed,
          status := .disconnected,
          wsRef := none,
          pendingTimers := s.pendingTimers + 1,
          refLive := true }, [])
    else (s, [])
  | .disconnectCall =>
    match (disconnectTimer s).wsRef with
    | some i =>
      ({ disconnectTimer s with
          socks :=
            if sockAt (disconnectTimer s) i = .connecting ∨
                sockAt (disconnectTimer s) i = .opened then
              (disconnectTimer s).socks.set i .closing
            else (disconnectTimer s).socks,
          wsRef := none,
          status := .disconnected }, [])
    | none => ({ disconnectTimer s with status := .disconnected }, [])
  | .timerFire isRef =>
    if isRef then
      if s.refLive then
        connectEffect { s with pendingTimers := s.pendingTimers - 1, refLive := false }
      else (s, [])
    else
      if (if s.refLive then 1 else 0) < s.pendingTimers then
        connectEffect { s with pendingTimers := s.pendingTimers - 1 }
      else (s, [])
  | .tick hasFrame =>
    if hasFrame = true ∧ refState s = some .opened then (s, [.sent]) else (s, [])

/-- Run a sequence of events, collecting all outputs. -/
def wsRun : WSState → List WSEvent → WSState × List WSOut
  | s, [] => (s, [])
  | s, e :: es =>
    match step s e with
    | (s1, out) =>
      match wsRun s1 es with
      | (s2, outs) => (s2, out ++ outs)

/-- C3 (code_bug).  `disconnect()` does not permanently stop retrying: after
connect → open → disconnect, the closed socket's still-attached `onclose`
handler fires, schedules a reconnect timeout, and when that timeout fires
`connect()` creates a second socket (`attempt 1`) — a reconnect attempt after
`disconnect()`, with no further application call.  The first three events
show that disconnect itself did cancel the (absent) timer and force the
disconnected state. -/
theorem reconnect_attempt_after_disconnect :
    (wsRun initWS [.connectCall, .openEvt 0, .disconnectCall]).1.status =
      .disconnected ∧
    (wsRun initWS [.connectCall, .openEvt 0, .disconnectCall]).2 = [.attempt 0] ∧
    (wsRun initWS
      [.connectCall, .openEvt 0, .disconnectCall, .closeEvt 0, .timerFire true]).2 =
      [.attempt 0, .attempt 1] := by
  refine ⟨rfl, rfl, rfl⟩

/-- C6 (counterexample).  A frame can be sent while the connection state is
`error`: a second `connect()` while the first socket is still connecting is
not guarded (the guard only checks OPEN), so two sockets race; after the
second opens (status connected) the first one's error handler sets status to
`error`, yet `sendFrame` still transmits over the open second socket. -/
theorem send_while_error_counterexample :
    (wsRun initWS [.connectCall, .connectCall, .openEvt 1, .errorEvt 0]).1.status =
      .error ∧
    (step (wsRun initWS [.connectCall, .connectCall, .openEvt 1, .errorEvt 0]).1
      (.tick true)).2 = [.sent] := by
  refine ⟨rfl, rfl⟩

/-- Single-connection discipline: `connect()` (directly or through a
reconnect timer) is invoked only when every socket ever created has fully
closed (its close event delivered). -/
def allSocksClosed (s : WSState) : Bool := s.socks.all (fun st => st == .closed)

def discOK (s : WSState) : WSEvent → Bool
  | .connectCall => allSocksClosed s
  | .timerFire _ => allSocksClosed s
  | _ => true

def discRunB : WSState → List WSEvent → Bool
  | _, [] => true
  | s, e :: es => discOK s e && discRunB (step s e).1 es

/-- Along a run, every frame transmission happens in the connected state. -/
def SentOk : WSState → List WSEvent → Prop
  | _, [] => True
  | s, e :: es =>
    (WSOut.sent ∈ (step s e).2 → s.status = .connected) ∧ SentOk (step s e).1 es

/-- Inductive invariant for disciplined runs: at most one socket is live
(not fully closed), the referenced socket is live, and a referenced open
socket forces the connected status. -/
def WSInv (s : WSState) : Prop :=
  (∀ i j, sockAt s i ≠ .closed → sockAt s j ≠ .closed → i = j) ∧
  (∀ i, s.wsRef = some i → sockAt s i ≠ .closed) ∧
  (∀ i, s.wsRef = some i → sockAt s i = .opened → s.status = .connected)

theorem getD_closed_of_ge (l : List SockState) (k : Nat) (h : l.length ≤ k) :
    l.getD k .closed = .closed := by
  rw [List.getD_eq_getElem?_getD, List.getElem?_eq_none h]
  rfl

theorem lt_length_of_ne_closed (l : List SockState) (k : Nat)
    (h : l.getD k .closed ≠ .closed) : k < l.length := by
  by_contra hk
  exact h (getD_closed_of_ge l k (by omega))

theorem sockAt_closed_of_all (s : WSState) (hall : allSocksClosed s = true) (i : Nat) :
    sockAt s i = .closed := by
  unfold sockAt
  by_cases h : i < s.socks.length
  · rw [List.getD_eq_getElem?_getD, List.getElem?_eq_getElem h]
    have hmem := List.getElem_mem (l := s.socks) (n := i) h
    have := (List.all_eq_true.mp hall) _ hmem
    simpa using this
  · exact getD_closed_of_ge _ _ (by omega)

theorem wsInv_connectEffect (s : WSState) (hinv : WSInv s)
    (hall : allSocksClosed s = true) : WSInv (connectEffect s).1 := by
  unfold connectEffect
  by_cases hr : refState s = some .opened
  · rw [if_pos hr]
    exact hinv
  · rw [if_neg hr]
    have key : ∀ k, (s.socks ++ [SockState.connecting]).getD k .closed ≠ .closed →
        k = s.socks.length := by
      intro k hk
      by_cases h1 : k < s.socks.length
      · exfalso
        apply hk
        rw [List.getD_eq_getElem?_getD, List.getElem?_append_left h1,
          ← List.getD_eq_getElem?_getD]
        exact sockAt_closed_of_all s hall k
      · by_cases h2 : k = s.socks.length
        · exact h2
        · exfalso
          exact hk (getD_closed_of_ge _ _ (by simp; omega))
      -- the discipline hypothesis makes every old socket closed
    have hself : (s.socks ++ [SockState.connecting]).getD s.socks.length .closed =
        .connecting := by
      rw [List.getD_eq_getElem?_getD, List.getElem?_concat_length]
      rfl
    refine ⟨?_, ?_, ?_⟩
    · intro i j hi hj
      replace hi : (s.socks ++ [SockState.connecting]).getD i .closed ≠ .closed := hi
      replace hj : (s.socks ++ [SockState.connecting]).getD j .closed ≠ .closed := hj
      rw [key i hi, key j hj]
    · intro i hwr
      replace hwr : some s.socks.length = some i := hwr
      obtain rfl : s.socks.length = i := by simpa using hwr
      show (s.socks ++ [SockState.connecting]).getD s.socks.length .closed ≠ .closed
      rw [hself]
      simp
    · intro i hwr hop
      replace hwr : some s.socks.length = some i := hwr
      obtain rfl : s.socks.length = i := by simpa using hwr
      replace hop : (s.socks ++ [SockState.connecting]).getD s.socks.length .closed =
        .opened := hop
      rw [hself] at hop
      exact absurd hop (by simp)

theorem wsInv_step (s : WSState) (e : WSEvent) (hinv : WSInv s)
    (hd : discOK s e = true) : WSInv (step s e).1 := by
  obtain ⟨inv1, inv2, inv3⟩ := hinv
  cases e with
  | connectCall => exact wsInv_connectEffect s ⟨inv1, inv2, inv3⟩ (by simpa using hd)
  | timerFire isRef =>
    have hall : allSocksClosed s = true := by simpa using hd
    simp only [step]
    cases isRef with
    | true =>
      rw [if_pos rfl]
      by_cases hrl : s.refLive = true
      · rw [if_pos hrl]
        exact wsInv_connectEffect _ ⟨inv1, inv2, inv3⟩ hall
      · rw [if_neg hrl]
        exact ⟨inv1, inv2, inv3⟩
    | false =>
      rw [if_neg (by simp)]
      by_cases ht : (if s.refLive = true then 1 else 0) < s.pendingTimers
      · rw [if_pos ht]
        exact wsInv_connectEffect _ ⟨inv1, inv2, inv3⟩ hall
      · rw [if_neg ht]
        exact ⟨inv1, inv2, inv3⟩
  | openEvt i =>
    simp only [step]
    by_cases hg : sockAt s i = SockState.connecting
    · rw [if_pos hg]
      have hg' : s.socks.getD i SockState.closed = SockState.connecting := hg
      have hlt : i < s.socks.length :=
        lt_length_of_ne_closed _ _ (by rw [hg']; simp)
      have hat : ∀ k, (s.socks.set i SockState.opened).getD k SockState.closed =
          if i = k then SockState.opened else s.socks.getD k SockState.closed := by
        intro k
        by_cases hik : i = k
        · subst hik
          rw [if_pos rfl, List.getD_eq_getElem?_getD, List.getElem?_set_eq hlt]
          rfl
        · rw [if_neg hik, List.getD_eq_getElem?_getD, List.getElem?_set_ne hik,
            ← List.getD_eq_getElem?_getD]
      refine ⟨?_, ?_, ?_⟩
      · intro k l hk hl
        replace hk : (s.socks.set i SockState.opened).getD k SockState.closed ≠
          SockState.closed := hk
        replace hl : (s.socks.set i SockState.opened).getD l SockState.closed ≠
          SockState.closed := hl
        rw [hat k] at hk
        rw [hat l] at hl
        have hio : sockAt s i ≠ SockState.closed := by
          rw [show sockAt s i = s.socks.getD i SockState.closed from rfl, hg']
          simp
        have hk' : k = i ∨ sockAt s k ≠ SockState.closed := by
          by_cases hik : i = k
          · exact .inl hik.symm
          · rw [if_neg hik] at hk
            exact .inr hk
        have hl' : l = i ∨ sockAt s l ≠ SockState.closed := by
          by_cases hil : i = l
          · exact .inl hil.symm
          · rw [if_neg hil] at hl
            exact .inr hl
        rcases hk' with rfl | hk' <;> rcases hl' with rfl | hl'
        · rfl
        · exact (inv1 l k hl' hio).symm
        · exact inv1 k l hk' hio
        · exact inv1 k l hk' hl'
      · intro m hwr
        replace hwr : s.wsRef = some m := hwr
        have hm := inv2 m hwr
        show (s.socks.set i SockState.opened).getD m SockState.closed ≠ SockState.closed
        rw [hat m]
        by_cases him : i = m
        · rw [if_pos him]
          simp
        · rw [if_neg him]
          exact hm
      · intro m hwr hop
        rfl
    · rw [if_neg hg]
      exact ⟨inv1, inv2, inv3⟩
  | errorEvt i =>
    simp only [step]
    by_cases hg : sockAt s i = SockState.connecting ∨ sockAt s i = SockState.opened
    · rw [if_pos hg]
      have hio : sockAt s i ≠ SockState.closed := by
        rcases hg with h | h <;> rw [h] <;> simp
      have hlt : i < s.socks.length := lt_length_of_ne_closed _ _ hio
      have hat : ∀ k, (s.socks.set i SockState.closing).getD k SockState.closed =
          if i = k then SockState.closing else s.socks.getD k SockState.closed := by
        intro k
        by_cases hik : i = k
        · subst hik
          rw [if_pos rfl, List.getD_eq_getElem?_getD, List.getElem?_set_eq hlt]
          rfl
        · rw [if_neg hik, List.getD_eq_getElem?_getD, List.getElem?_set_ne hik,
            ← List.getD_eq_getElem?_getD]
      refine ⟨?_, ?_, ?_⟩
      · intro k l hk hl
        replace hk : (s.socks.set i SockState.closing).getD k SockState.closed ≠
          SockState.closed := hk
        replace hl : (s.socks.set i SockState.closing).getD l SockState.closed ≠
          SockState.closed := hl
        rw [hat k] at hk
        rw [hat l] at hl
        have hk' : k = i ∨ sockAt s k ≠ SockState.closed := by
          by_cases hik : i = k
          · exact .inl hik.symm
          · rw [if_neg hik] at hk
            exact .inr hk
        have hl' : l = i ∨ sockAt s l ≠ SockState.closed := by
          by_cases hil : i = l
          · exact .inl hil.symm
          · rw [if_neg hil] at hl
            exact .inr hl
        rcases hk' with rfl | hk' <;> rcases hl' with rfl | hl'
        · rfl
        · exact (inv1 l k hl' hio).symm
        · exact inv1 k l hk' hio
        · exact inv1 k l hk' hl'
      · intro m hwr
        replace hwr : s.wsRef = some m := hwr
        have hm := inv2 m hwr
        show (s.socks.set i SockState.closing).getD m SockState.closed ≠ SockState.closed
        rw [hat m]
        by_cases him : i = m
        · rw [if_pos him]
          simp
        · rw [if_neg him]
          exact hm
      · intro m hwr hop
        replace hwr : s.wsRef = some m := hwr
        replace hop : (s.socks.set i SockState.closing).getD m SockState.closed =
          SockState.opened := hop
        rw [hat m] at hop
        by_cases him : i = m
        · rw [if_pos him] at hop
          exact absurd hop (by simp)
        · rw [if_neg him] at hop
          have hmne : sockAt s m ≠ SockState.closed := by
            rw [show sockAt s m = s.socks.getD m SockState.closed from rfl, hop]
            simp
          exact absurd (inv1 m i hmne hio) (fun h => him h.symm)
    · rw [if_neg hg]
      exact ⟨inv1, inv2, inv3⟩
  | closeEvt i =>
    simp only [step]
    by_cases hg : sockAt s i ≠ SockState.closed
    · rw [if_pos hg]
      have hlt : i < s.socks.length := lt_length_of_ne_closed _ _ hg
      refine ⟨?_, ?_, ?_⟩
      · intro k l hk hl
        replace hk : (s.socks.set i SockState.closed).getD k SockState.closed ≠
          SockState.closed := hk
        replace hl : (s.socks.set i SockState.closed).getD l SockState.closed ≠
          SockState.closed := hl
        have hat : ∀ m, (s.socks.set i SockState.closed).getD m SockState.closed ≠
            SockState.closed → sockAt s m ≠ SockState.closed := by
          intro m hm
          by_cases him : i = m
          · subst him
            exact hg
          · rw [List.getD_eq_getElem?_getD, List.getElem?_set_ne him,
              ← List.getD_eq_getElem?_getD] at hm
            exact hm
        exact inv1 k l (hat k hk) (hat l hl)
      · intro m hm
        replace hm : (none : Option Nat) = some m := hm
        exact Option.noConfusion hm
      · intro m hm
        replace hm : (none : Option Nat) = some m := hm
        exact Option.noConfusion hm
    · rw [if_neg hg]
      exact ⟨inv1, inv2, inv3⟩
  | disconnectCall =>
    simp only [step]
    have hs1socks : (disconnectTimer s).socks = s.socks := by
      unfold disconnectTimer
      split <;> rfl
    cases hwr : (disconnectTimer s).wsRef with
    | none =>
      simp only [hwr]
      refine ⟨?_, ?_, ?_⟩
      · intro k l hk hl
        replace hk : (disconnectTimer s).socks.getD k SockState.closed ≠
          SockState.closed := hk
        replace hl : (disconnectTimer s).socks.getD l SockState.closed ≠
          SockState.closed := hl
        rw [hs1socks] at hk hl
        exact inv1 k l hk hl
      · intro m hm
        replace hm : (none : Option Nat) = some m := hm
        exact Option.noConfusion hm
      · intro m hm
        replace hm : (none : Option Nat) = some m := hm
        exact Option.noConfusion hm
    | some i =>
      simp only [hwr]
      have hat : ∀ m,
          (if sockAt (disconnectTimer s) i = SockState.connecting ∨
              sockAt (disconnectTimer s) i = SockState.opened then
            (disconnectTimer s).socks.set i SockState.closing
          else (disconnectTimer s).socks).getD m SockState.closed ≠ SockState.closed →
          sockAt s m ≠ SockState.closed := by
        intro m hm
        by_cases hgi : sockAt (disconnectTimer s) i = SockState.connecting ∨
            sockAt (disconnectTimer s) i = SockState.opened
        · rw [if_pos hgi] at hm
          by_cases him : i = m
          · subst him
            have hne : (disconnectTimer s).socks.getD i SockState.closed ≠
                SockState.closed := by
              rcases hgi with h | h
              · replace h : (disconnectTimer s).socks.getD i SockState.closed =
                  SockState.connecting := h
                rw [h]
                simp
              · replace h : (disconnectTimer s).socks.getD i SockState.closed =
                  SockState.opened := h
                rw [h]
                simp
            rw [hs1socks] at hne
            exact hne
          · rw [List.getD_eq_getElem?_getD, List.getElem?_set_ne him,
              ← List.getD_eq_getElem?_getD, hs1socks] at hm
            exact hm
        · rw [if_neg hgi, hs1socks] at hm
          exact hm
      refine ⟨?_, ?_, ?_⟩
      · intro k l hk hl
        exact inv1 k l (hat k hk) (hat l hl)
      · intro m hm
        replace hm : (none : Option Nat) = some m := hm
        exact Option.noConfusion hm
      · intro m hm
        replace hm : (none : Option Nat) = some m := hm
        exact Option.noConfusion hm
  | tick hasFrame =>
    simp only [step]
    by_cases hc : hasFrame = true ∧ refState s = some SockState.opened
    · rw [if_pos hc]
      exact ⟨inv1, inv2, inv3⟩
    · rw [if_neg hc]
      exact ⟨inv1, inv2, inv3⟩

theorem sent_not_in_connectEffect (s : WSState) : WSOut.sent ∉ (connectEffect s).2 := by
  unfold connectEffect
  by_cases hr : refState s = some SockState.opened
  · rw [if_pos hr]
    simp
  · rw [if_neg hr]
    simp

theorem step_sent_refState (s : WSState) (e : WSEvent)
    (h : WSOut.sent ∈ (step s e).2) : refState s = some SockState.opened := by
  cases e with
  | connectCall =>
    exact absurd h (sent_not_in_connectEffect s)
  | openEvt i =>
    exfalso
    simp only [step] at h
    by_cases hg : sockAt s i = SockState.connecting
    · rw [if_pos hg] at h
      simp at h
    · rw [if_neg hg] at h
      simp at h
  | errorEvt i =>
    exfalso
    simp only [step] at h
    by_cases hg : sockAt s i = SockState.connecting ∨ sockAt s i = SockState.opened
    · rw [if_pos hg] at h
      simp at h
    · rw [if_neg hg] at h
      simp at h
  | closeEvt i =>
    exfalso
    simp only [step] at h
    by_cases hg : sockAt s i ≠ SockState.closed
    · rw [if_pos hg] at h
      simp at h
    · rw [if_neg hg] at h
      simp at h
  | disconnectCall =>
    exfalso
    simp only [step] at h
    cases hwr : (disconnectTimer s).wsRef with
    | none =>
      rw [hwr] at h
      simp at h
    | some i =>
      rw [hwr] at h
      simp at h
  | timerFire isRef =>
    exfalso
    simp only [step] at h
    cases isRef with
    | true =>
      rw [if_pos rfl] at h
      by_cases hrl : s.refLive = true
      · rw [if_pos hrl] at h
        exact sent_not_in_connectEffect _ h
      · rw [if_neg hrl] at h
        simp at h
    | false =>
      rw [if_neg (by simp)] at h
      by_cases ht : (if s.refLive = true then 1 else 0) < s.pendingTimers
      · rw [if_pos ht] at h
        exact sent_not_in_connectEffect _ h
      · rw [if_neg ht] at h
        simp at h
  | tick hasFrame =>
    simp only [step] at h
    by_cases hc : hasFrame = true ∧ refState s = some SockState.opened
    · exact hc.2
    · rw [if_neg hc] at h
      simp at h

theorem wsInv_init : WSInv initWS := by
  refine ⟨?_, ?_, ?_⟩
  · intro i j hi _
    exact absurd rfl hi
  · intro i hi
    exact Option.noConfusion hi
  · intro i hi _
    exact Option.noConfusion hi

theorem sentOk_of_disciplined (es : List WSEvent) (s : WSState) (hinv : WSInv s)
    (hd : discRunB s es = true) : SentOk s es := by
  induction es generalizing s with
  | nil => trivial
  | cons e es ih =>
    rw [discRunB, Bool.and_eq_true] at hd
    refine ⟨?_, ih (step s e).1 (wsInv_step s e hinv hd.1) hd.2⟩
    intro hsent
    have hr := step_sent_refState s e hsent
    unfold refState at hr
    cases hwr : s.wsRef with
    | none =>
      rw [hwr] at hr
      simp at hr
    | some i =>
      rw [hwr] at hr
      exact hinv.2.2 i hwr (by simpa using hr)

/-- C6 (amended).  A frame is only ever transmitted while the referenced
socket is OPEN (the `sendFrame` guard), for any interleaving whatsoever; and
under the single-connection discipline — `connect()` is only invoked (directly
or by a reconnect timer) when every previously created socket has fully
closed — a frame is never sent while the connection state differs from
`connected`.  Without that discipline the claim fails on the code; see the
counterexample, where a second `connect()` during `connecting` races two
sockets and a frame is sent in the `error` state. -/
theorem frames_sent_only_when_connected :
    (∀ (s : WSState) (e : WSEvent), WSOut.sent ∈ (step s e).2 →
      refState s = some SockState.opened) ∧
    (∀ es : List WSEvent, discRunB initWS es = true → SentOk initWS es) :=
  ⟨step_sent_refState, fun es hd => sentOk_of_disciplined es initWS wsInv_init hd⟩

theorem frames_sent_only_when_connected_witness :
    refState
      { socks := [SockState.opened], wsRef := some 0, status := ConnStatus.connected,
        pendingTimers := 0, refLive := false } = some SockState.opened ∧
    SentOk initWS [WSEvent.connectCall, WSEvent.openEvt 0, WSEvent.tick true] :=
  ⟨frames_sent_only_when_connected.1
      { socks := [SockState.opened], wsRef := some 0, status := ConnStatus.connected,
        pendingTimers := 0, refLive := false }
      (WSEvent.tick true) (by decide),
   frames_sent_only_when_connected.2
      [WSEvent.connectCall, WSEvent.openEvt 0, WSEvent.tick true] (by decide)⟩

end PokerHelper
